import Mathlib

/-!
# Verification of the ASTE span-boundary decoding / evaluation core

Shallow embedding of the span-construction, prediction-decoding and
coverage-evaluation routines of the repository:

* `TransformerWithAggregation.construct_spans_ranges`
  (`src/aste/models/model_elements/embeddings/transformer_embeddings.py`,
  lines 37-54),
* `Trainer._get_predicted_spans` (`src/aste/trainer.py`, lines 178-197),
* `Trainer._count_intersection` (`src/aste/trainer.py`, lines 200-204),
* `Trainer.check_coverage_detected_spans` (`src/aste/trainer.py`,
  lines 163-176),
* `Trainer._model_out_for_metrics` (`src/aste/trainer.py`, lines 155-161).

Tensors / numpy arrays are modelled as Lists; real-valued scores as `ℚ`;
token indices and span endpoints as `ℤ` (the code subtracts 1 from span
ends, which can go below zero).
-/

namespace ASTE

/-- Modelled from the spec: the `ChunkCode` enumeration lives in
`dataset/domain/const.py`, which is not part of the analysed sources.
Per the spec's data model the class-score order is `(not-split, split)`;
the binarization step (`trainer.py` line 182) writes `1` for split and
`0` for not-split, and line 187 overwrites masked positions with
`int(ChunkCode.NOT_SPLIT)`, so `NOT_SPLIT = 0` and `SPLIT = 1`. -/
def ChunkCode.NOT_SPLIT : Nat := 0

/-- Modelled from the spec: the split label of the `ChunkCode`
enumeration (see `ChunkCode.NOT_SPLIT`). -/
def ChunkCode.SPLIT : Nat := 1

/-- `np.where(xs)[0]` on an integer array: the (increasing) list of
indices holding a nonzero value. -/
def nonzeroIndices (xs : List Nat) : List Nat :=
  ((List.range xs.length).filter (fun i => xs.getD i 0 ≠ 0))

/-- `tensor.nonzero().squeeze()` on a boolean tensor with at least two
`true` entries: the (increasing) list of indices holding `true`. -/
def nonzeroB (m : List Bool) : List Nat :=
  ((List.range m.length).filter (fun i => m.getD i false = true))

/-- `np.lib.stride_tricks.sliding_window_view(xs, 2)` /
`tensor.unfold(0, 2, 1)`: all consecutive pairs of a sequence. -/
def slidingPairs (xs : List ℤ) : List (ℤ × ℤ) :=
  xs.zip xs.tail

/-- The shared span-building step: consecutive pairs of a boundary
sequence with the second component decremented ("because we perform
split before the selected word" — `trainer.py` lines 190-194,
`transformer_embeddings.py` lines 50-51). -/
def buildSpans (b : List ℤ) : List (ℤ × ℤ) :=
  (slidingPairs b).map (fun p => (p.1, p.2 - 1))

/-- `np.delete(spans, np.where(spans[:, 0] > spans[:, 1]), axis=0)`
(`trainer.py` line 197): delete every span whose first component
exceeds its second. -/
def dropDegenerateSpans (spans : List (ℤ × ℤ)) : List (ℤ × ℤ) :=
  spans.filter (fun p => decide (p.1 ≤ p.2))

/-- `TransformerWithAggregation.construct_spans_ranges`
(`transformer_embeddings.py` lines 37-54), per sample.  `words_mask` is
`sample.sentence_obj[0].get_sub_words_mask(force_true_mask=True)` and
`L` is `sample.sentence_obj[0].encoded_sentence_length`.  The code takes
the nonzero positions of the mask, prepends the sentinel `0`, appends
the sentinels `L - 1` and `L`, unfolds into consecutive pairs and
decrements each pair's second component.  No degenerate-span filtering
is applied. -/
def construct_spans_ranges (words_mask : List Bool) (L : Nat) : List (ℤ × ℤ) :=
  buildSpans (((0 : ℤ) :: (nonzeroB words_mask).map Int.ofNat)
      ++ [(L : ℤ) - 1, (L : ℤ)])

/-- The binarization threshold `0.5` of `trainer.py` line 182 (written
through `mkRat` so that it evaluates inside the kernel; see
`threshold_eq_half`). -/
def threshold : ℚ := mkRat 1 2

/-- The threshold is the literal `0.5 = 1/2` of the source. -/
theorem threshold_eq_half : threshold = 1 / 2 := by
  norm_num [threshold, Rat.mkRat_eq_div]

/-- Stage 1 of `Trainer._get_predicted_spans` (`trainer.py` lines
182-187): binarize the split scores against the 0.5 threshold
(`np.where(predictions[:, 1] >= 0.5, 1, 0)`), truncate scores and
sub-word mask to the encoded sentence length `N`, and overwrite every
masked-out (continuation sub-token) position with
`int(ChunkCode.NOT_SPLIT)`. -/
def correctedSplits (preds : List (ℚ × ℚ)) (sub_mask : List Bool) (N : Nat) :
    List Nat :=
  let bin : List Nat := (preds.map (fun p => if threshold ≤ p.2 then 1 else 0)).take N
  List.zipWith (fun (m : Bool) (v : Nat) => if m then v else ChunkCode.NOT_SPLIT)
    (sub_mask.take N) bin

/-- Stage 2 of `Trainer._get_predicted_spans` (`trainer.py` line 189):
`np.pad(np.where(predictions)[0], 1, constant_values=(offset,
len(predictions) - offset))` — the split positions with the left
sentinel `offset` prepended and the right sentinel
`len(predictions) - offset` appended. -/
def predictedBoundaries (corrected : List Nat) (offset : Nat) : List ℤ :=
  ((offset : ℤ) :: (nonzeroIndices corrected).map Int.ofNat)
    ++ [(corrected.length : ℤ) - (offset : ℤ)]

/-- Stage 3 of `Trainer._get_predicted_spans` (`trainer.py` lines
190-197): sliding window of width 2 over the boundaries, decrement the
second component of each pair, and delete every row whose first
component exceeds its second. -/
def spansOfCorrected (corrected : List Nat) (offset : Nat) : List (ℤ × ℤ) :=
  dropDegenerateSpans (buildSpans (predictedBoundaries corrected offset))

/-- `Trainer._get_predicted_spans` (`trainer.py` lines 178-197), per
sample.  `preds` is the per-token class-score array (row `i` holds the
`(not-split, split)` scores of token `i`), `sub_mask` the sub-word
mask, `N` the encoded sentence length and `offset` the encoder
offset. -/
def get_predicted_spans (preds : List (ℚ × ℚ)) (sub_mask : List Bool)
    (N : Nat) (offset : Nat) : List (ℤ × ℤ) :=
  spansOfCorrected (correctedSplits preds sub_mask N) offset

/-- `Trainer._count_intersection` (`trainer.py` lines 200-204): build
the set of predicted spans and the set of reference spans and return
the size of their intersection. -/
def count_intersection (true_spans : List (ℤ × ℤ))
    (predicted_spans : List (ℤ × ℤ)) : Nat :=
  (predicted_spans.toFinset ∩ true_spans.toFinset).card

/-- A sample as consumed by `Trainer.check_coverage_detected_spans`:
its per-token class scores (what `self.predict` returns for it), its
sub-word mask, encoded sentence length, encoder offset, and the
reference spans `sample.sentence_obj[0].get_all_unordered_spans()`. -/
structure Sample where
  preds : List (ℚ × ℚ)
  sub_mask : List Bool
  N : Nat
  offset : Nat
  true_spans : List (ℤ × ℤ)

/-- The predicted spans of a `Sample`. -/
def Sample.predicted (s : Sample) : List (ℤ × ℤ) :=
  get_predicted_spans s.preds s.sub_mask s.N s.offset

/-- The `num_predicted` accumulator of
`Trainer.check_coverage_detected_spans` (`trainer.py` line 172):
`predicted_spans.shape[0]` summed over every sample. -/
def num_predicted (data : List Sample) : Nat :=
  (data.map (fun s => s.predicted.length)).sum

/-- The `num_correct_predicted` accumulator of
`Trainer.check_coverage_detected_spans` (`trainer.py` line 171):
`_count_intersection(true_spans, predicted_spans)` summed over every
sample. -/
def num_correct_predicted (data : List Sample) : Nat :=
  (data.map (fun s => count_intersection s.true_spans s.predicted)).sum

/-- The `true_num` accumulator of
`Trainer.check_coverage_detected_spans` (`trainer.py` line 173):
`len(true_spans)` summed over every sample. -/
def true_num (data : List Sample) : Nat :=
  (data.map (fun s => s.true_spans.length)).sum

/-- `Trainer.check_coverage_detected_spans` (`trainer.py` lines
163-176): accumulate, over every sample of the dataset, the number of
predicted spans, the intersection count with the reference spans, and
the number of reference spans; return the ratio
`num_correct_predicted / true_num` together with the reported
`num_predicted`.  When `true_num = 0` the Python division raises
`ZeroDivisionError`, modelled as `none`. -/
def check_coverage_detected_spans (data : List Sample) : Option (ℚ × Nat) :=
  if true_num data = 0 then none
  else some ((num_correct_predicted data : ℚ) / (true_num data : ℚ),
    num_predicted data)

/-- The fill row of `Trainer._model_out_for_metrics` (`trainer.py`
lines 158-159): a zero vector of the class dimension with a `1` written
at index `int(ChunkCode.NOT_SPLIT)`. -/
def fill_value (C : Nat) : List ℚ :=
  (List.range C).map (fun j => if j = ChunkCode.NOT_SPLIT then 1 else 0)

/-- `Trainer._model_out_for_metrics` (`trainer.py` lines 155-161):
`torch.where(sub_mask, model_out, fill_value)` with the sub-word mask
reshaped to a column — row `i` of the result is row `i` of `model_out`
when the mask is true there and the fill row otherwise.  `C` is the
class dimension `model_out.shape[-1]`. -/
def model_out_for_metrics (model_out : List (List ℚ)) (sub_mask : List Bool)
    (C : Nat) : List (List ℚ) :=
  List.zipWith
    (fun (m : Bool) (row : List ℚ) => if m then row else fill_value C)
    sub_mask model_out

example : construct_spans_ranges [true, true] 2 =
    [(0, -1), (0, 0), (1, 0), (1, 1)] := by decide

example : construct_spans_ranges [true, false, false, true, false, true] 6 =
    [(0, -1), (0, 2), (3, 4), (5, 4), (5, 5)] := by decide

example : get_predicted_spans
    [(0, 1), (1, 0), (1, 0), (0, 1), (1, 0), (0, 1)]
    [true, true, true, true, true, true] 6 0 =
    [(0, 2), (3, 4), (5, 5)] := by decide

example : predictedBoundaries [0, 1, 0, 0, 0, 0] 1 = [1, 1, 5] := by decide

/-! ## Helper lemmas -/

theorem buildSpans_cons_cons (x y : ℤ) (l : List ℤ) :
    buildSpans (x :: y :: l) = (x, y - 1) :: buildSpans (y :: l) := rfl

theorem dropDegenerate_buildSpans_cons_cons (x y : ℤ) (l : List ℤ) :
    dropDegenerateSpans (buildSpans (x :: y :: l)) =
      (if x < y then [(x, y - 1)] else []) ++
        dropDegenerateSpans (buildSpans (y :: l)) := by
  rw [buildSpans_cons_cons, dropDegenerateSpans, List.filter_cons]
  by_cases h : x < y
  · have h' : decide (x ≤ y - 1) = true := by simp; omega
    simp [h, h', dropDegenerateSpans]
  · have h' : decide (x ≤ y - 1) = false := by simp; omega
    simp [h, h', dropDegenerateSpans]

theorem mem_dropDegenerateSpans {s : ℤ × ℤ} {spans : List (ℤ × ℤ)}
    (hs : s ∈ dropDegenerateSpans spans) : s.1 ≤ s.2 := by
  have h := List.mem_filter.mp hs
  simpa using h.2

/-- After the leading sentinel, the kept spans built over a strictly
increasing boundary list never overlap, and each starts no earlier than
the first boundary. -/
theorem spans_tail_invariant (m' : List ℤ) : ∀ (h R : ℤ),
    (h :: m').Pairwise (· < ·) →
    (dropDegenerateSpans (buildSpans (h :: (m' ++ [R])))).Pairwise
        (fun s t => s.2 < t.1) ∧
      ∀ s ∈ dropDegenerateSpans (buildSpans (h :: (m' ++ [R]))), h ≤ s.1 := by
  induction m' with
  | nil =>
    intro h R _
    have hb : buildSpans (h :: ([] ++ [R])) = [(h, R - 1)] := rfl
    rw [hb]
    constructor
    · exact List.Pairwise.filter _ (List.pairwise_singleton _ _)
    · intro s hs
      have h1 := (List.mem_filter.mp hs).1
      simp only [List.mem_singleton] at h1
      subst h1
      exact le_refl _
  | cons h' m'' ih =>
    intro h R hp
    have hhh : h < h' := (List.pairwise_cons.mp hp).1 h' (by simp)
    have hp' : (h' :: m'').Pairwise (· < ·) := (List.pairwise_cons.mp hp).2
    obtain ⟨ihp, ihs⟩ := ih h' R hp'
    rw [List.cons_append, dropDegenerate_buildSpans_cons_cons, if_pos hhh,
      List.singleton_append]
    constructor
    · refine List.pairwise_cons.mpr ⟨?_, ihp⟩
      intro t ht
      have := ihs t ht
      simp only
      omega
    · intro s hs
      rcases List.mem_cons.mp hs with h1 | h1
      · subst h1; simp
      · exact le_trans (le_of_lt hhh) (ihs s h1)

/-- The kept spans over a boundary list of the shape
`sentinel :: (strictly increasing) ++ [sentinel]` are pairwise
non-overlapping. -/
theorem spans_disjoint (o : ℤ) (m : List ℤ) (R : ℤ)
    (hm : m.Pairwise (· < ·)) :
    (dropDegenerateSpans (buildSpans ((o :: m) ++ [R]))).Pairwise
      (fun s t => s.2 < t.1) := by
  cases m with
  | nil =>
    have hb : buildSpans ((o :: []) ++ [R]) = [(o, R - 1)] := rfl
    rw [hb]
    exact List.Pairwise.filter _ (List.pairwise_singleton _ _)
  | cons h m' =>
    obtain ⟨ihp, ihs⟩ := spans_tail_invariant m' h R hm
    rw [List.cons_append, List.cons_append, dropDegenerate_buildSpans_cons_cons]
    by_cases hoh : o < h
    · rw [if_pos hoh, List.singleton_append]
      refine List.pairwise_cons.mpr ⟨?_, by rw [← List.cons_append]; exact ihp⟩
      intro t ht
      rw [← List.cons_append] at ht
      have := ihs t ht
      simp only
      omega
    · rw [if_neg hoh, List.nil_append, ← List.cons_append]
      exact ihp

theorem nonzeroIndices_pairwise (xs : List Nat) :
    (nonzeroIndices xs).Pairwise (· < ·) :=
  List.Pairwise.filter _ (List.pairwise_lt_range _)

theorem boundaries_mid_pairwise (corrected : List Nat) :
    ((nonzeroIndices corrected).map Int.ofNat).Pairwise (· < ·) := by
  rw [List.pairwise_map]
  exact (nonzeroIndices_pairwise corrected).imp
    (fun h => Int.ofNat_lt.mpr h)

/-- `_count_intersection` counts the distinct predicted spans that
equal some reference span (exact `(start, end)` equality). -/
theorem count_intersection_eq (t p : List (ℤ × ℤ)) :
    count_intersection t p =
      ((p.filter (fun s => decide (s ∈ t))).dedup).length := by
  rw [count_intersection, ← Finset.filter_mem_eq_inter, ← List.card_toFinset,
    List.toFinset_filter]
  congr 1
  apply Finset.filter_congr
  intro s _
  simp

theorem count_intersection_le (t p : List (ℤ × ℤ)) :
    count_intersection t p ≤ t.length :=
  le_trans (Finset.card_le_card Finset.inter_subset_right)
    (List.toFinset_card_le t)

theorem num_correct_le_true_num (data : List Sample) :
    num_correct_predicted data ≤ true_num data := by
  apply List.sum_le_sum
  intro s _
  exact count_intersection_le _ _

/-- The example sample of the coverage test: predicted spans decode to
`[(0,2),(3,4)]` while the reference spans are
`[(0,2),(3,4),(6,7)]`. -/
def coverageSample : Sample :=
  ⟨[(0, 1), (1, 0), (1, 0), (0, 1), (1, 0)], [true, true, true, true, true],
    5, 0, [(0, 2), (3, 4), (6, 7)]⟩

theorem coverageSample_predicted :
    coverageSample.predicted = [(0, 2), (3, 4)] := by decide

theorem coverage_example_eval :
    check_coverage_detected_spans [coverageSample] = some (2 / 3, 2) := by
  have h1 : num_correct_predicted [coverageSample] = 2 := by decide
  have h2 : true_num [coverageSample] = 3 := by decide
  have h3 : num_predicted [coverageSample] = 2 := by decide
  rw [check_coverage_detected_spans, h1, h2, h3]
  norm_num

/-! ## Claims -/

/-- C1 (counterexample): `TransformerWithAggregation.construct_spans_ranges`
does return a span whose first component exceeds its second: on the
forced-true mask `[true, true]` with encoded sentence length 2 its
output contains the degenerate pair `(0, -1)`. -/
theorem C1_counterexample :
    ((0 : ℤ), (-1 : ℤ)) ∈ construct_spans_ranges [true, true] 2 ∧
      ¬ ((0 : ℤ) ≤ (-1 : ℤ)) := by decide

/-- C1 (amended): every span returned by `Trainer._get_predicted_spans`
satisfies `start ≤ end` (degenerate spans are deleted at the final
`np.delete` step); `construct_spans_ranges`, by contrast, applies no
such filter and can emit degenerate spans. -/
theorem C1_no_degenerate_predicted_spans (preds : List (ℚ × ℚ))
    (sub_mask : List Bool) (N offset : Nat) (s : ℤ × ℤ)
    (hs : s ∈ get_predicted_spans preds sub_mask N offset) : s.1 ≤ s.2 :=
  mem_dropDegenerateSpans hs

theorem C1_no_degenerate_predicted_spans_witness :
    ((0 : ℤ), (2 : ℤ)).1 ≤ ((0 : ℤ), (2 : ℤ)).2 :=
  C1_no_degenerate_predicted_spans
    [(0, 1), (1, 0), (1, 0), (0, 1), (1, 0), (0, 1)]
    [true, true, true, true, true, true] 6 0 (0, 2) (by decide)

/-- C2 (counterexample): on the sub-word mask with unit-starts exactly
at `{0, 3, 5}` and content length 6, `construct_spans_ranges` does not
produce `[(0,2),(3,4),(5,5)]` — it keeps the degenerate spans `(0,-1)`
and `(5,4)` as well. -/
theorem C2_counterexample :
    construct_spans_ranges [true, false, false, true, false, true] 6 ≠
      [(0, 2), (3, 4), (5, 5)] := by decide

/-- C2 (amended): with offset 0 and the binarized-and-masked split
array true exactly at `{0, 3, 5}` within content length 6,
`Trainer._get_predicted_spans` produces exactly `[(0,2),(3,4),(5,5)]`;
`construct_spans_ranges` on that mask produces those three spans only
after its degenerate pairs are additionally dropped. -/
theorem C2_roundtrip (preds : List (ℚ × ℚ)) (sub_mask : List Bool)
    (h : correctedSplits preds sub_mask 6 = [1, 0, 0, 1, 0, 1]) :
    get_predicted_spans preds sub_mask 6 0 = [(0, 2), (3, 4), (5, 5)] ∧
      dropDegenerateSpans
          (construct_spans_ranges [true, false, false, true, false, true] 6) =
        [(0, 2), (3, 4), (5, 5)] := by
  refine ⟨?_, by decide⟩
  show spansOfCorrected (correctedSplits preds sub_mask 6) 0 = _
  rw [h]
  decide

theorem C2_roundtrip_witness :
    get_predicted_spans [(0, 1), (1, 0), (1, 0), (0, 1), (1, 0), (0, 1)]
        [true, true, true, true, true, true] 6 0 =
      [(0, 2), (3, 4), (5, 5)] :=
  (C2_roundtrip _ _ (by decide)).1

/-- C3 (counterexample): the boundary sequence that
`Trainer._get_predicted_spans` feeds into the sliding window does not
end with the content length: for the sample with content length 6,
offset 1 and a predicted split exactly at position 1, the boundary
sequence is `[1, 1, 5]`, whose last element is `6 - 1 = 5`, not 6. -/
theorem C3_counterexample :
    (predictedBoundaries (correctedSplits
          [(0, 0), (0, 1), (0, 0), (0, 0), (0, 0), (0, 0)]
          [true, true, true, true, true, true] 6) 1).getLast? = some 5 ∧
      (5 : ℤ) ≠ 6 := by decide

/-- C3 (amended): the boundary sequence starts with the sample's
offset, ends with the content length minus the offset (the code pads
with `constant_values=(offset, len(predictions) - offset)`), and holds
the binarized split positions in between. -/
theorem C3_boundary_sentinels (corrected : List Nat) (offset : Nat) :
    (predictedBoundaries corrected offset).head? = some (offset : ℤ) ∧
      (predictedBoundaries corrected offset).getLast? =
        some ((corrected.length : ℤ) - (offset : ℤ)) ∧
      (predictedBoundaries corrected offset).dropLast.tail =
        (nonzeroIndices corrected).map Int.ofNat := by
  refine ⟨rfl, List.getLast?_concat _, ?_⟩
  rw [predictedBoundaries, List.dropLast_concat]
  rfl

/-- C6: `Trainer._count_intersection` is the size of the exact-match
set intersection — a predicted span contributes once iff it equals
some reference span in both components, partial overlaps contribute
nothing — and on predicted `{(0,2),(3,4)}` against reference
`{(0,2),(3,4),(6,7)}` the count is 2 and the accumulated coverage
ratio is 2/3. -/
theorem C6_count_intersection_exact :
    (∀ (t p : List (ℤ × ℤ)),
        count_intersection t p =
          ((p.filter (fun s => decide (s ∈ t))).dedup).length) ∧
      count_intersection [(0, 2), (3, 4), (6, 7)] [(0, 2), (3, 4)] = 2 ∧
      check_coverage_detected_spans [coverageSample] = some (2 / 3, 2) :=
  ⟨count_intersection_eq, by decide, coverage_example_eval⟩

/-- C7: when the total reference-span count over the evaluated dataset
is zero, `Trainer.check_coverage_detected_spans` fails with the
division-by-zero error (modelled as `none`) and never returns a
ratio. -/
theorem C7_zero_references_fails (data : List Sample)
    (h : true_num data = 0) :
    check_coverage_detected_spans data = none := by
  simp [check_coverage_detected_spans, h]

theorem C7_zero_references_fails_witness :
    check_coverage_detected_spans
        [⟨[(0, 1)], [true], 1, 0, []⟩] = none :=
  C7_zero_references_fails [⟨[(0, 1)], [true], 1, 0, []⟩] (by decide)

/-- C4: for every class-score array, sub-word mask, content length
`N ≥ 1` and offset in `[0, N)`, the span sequence returned by
`Trainer._get_predicted_spans` is ordered by start, pairwise
non-overlapping, and contains no zero- or negative-length spans. -/
theorem C4_predicted_spans_invariants (preds : List (ℚ × ℚ))
    (sub_mask : List Bool) (N offset : Nat) (_hN : 1 ≤ N)
    (_ho : offset < N) :
    (get_predicted_spans preds sub_mask N offset).Pairwise
        (fun s t => s.1 < t.1) ∧
      (get_predicted_spans preds sub_mask N offset).Pairwise
        (fun s t => s.2 < t.1) ∧
      ∀ s ∈ get_predicted_spans preds sub_mask N offset, s.1 ≤ s.2 := by
  have hdisj : (get_predicted_spans preds sub_mask N offset).Pairwise
      (fun s t => s.2 < t.1) :=
    spans_disjoint (offset : ℤ)
      ((nonzeroIndices (correctedSplits preds sub_mask N)).map Int.ofNat)
      (((correctedSplits preds sub_mask N).length : ℤ) - (offset : ℤ))
      (boundaries_mid_pairwise _)
  have hse : ∀ s ∈ get_predicted_spans preds sub_mask N offset, s.1 ≤ s.2 :=
    fun s hs => mem_dropDegenerateSpans hs
  exact ⟨List.Pairwise.imp_of_mem
      (fun {a b} ha hb hab => lt_of_le_of_lt (hse a ha) hab) hdisj,
    hdisj, hse⟩

theorem C4_predicted_spans_invariants_witness :
    (get_predicted_spans [(0, 1), (1, 0), (1, 0), (0, 1), (1, 0), (0, 1)]
        [true, true, true, true, true, true] 6 0).Pairwise
      (fun s t => s.2 < t.1) :=
  (C4_predicted_spans_invariants _ _ 6 0 (by norm_num) (by norm_num)).2.1

/-- The masking step (`trainer.py` line 187) produces equal corrected
arrays whenever the two binarized arrays agree at every mask-true
position. -/
theorem zipWith_mask_congr :
    ∀ (mask : List Bool) (b1 b2 : List Nat), b1.length = b2.length →
      (∀ i, mask.getD i false = true → b1[i]? = b2[i]?) →
      List.zipWith
          (fun (m : Bool) (v : Nat) => if m then v else ChunkCode.NOT_SPLIT)
          mask b1 =
        List.zipWith
          (fun (m : Bool) (v : Nat) => if m then v else ChunkCode.NOT_SPLIT)
          mask b2
  | [], _, _, _, _ => by simp
  | _ :: _, [], [], _, _ => by simp
  | _ :: _, [], _ :: _, hlen, _ => by simp at hlen
  | _ :: _, _ :: _, [], hlen, _ => by simp at hlen
  | m :: mask, x :: b1, y :: b2, hlen, hag => by
    have htail := zipWith_mask_congr mask b1 b2 (by simpa using hlen)
      (fun i hi => by
        have := hag (i + 1) (by simpa using hi)
        simpa using this)
    cases m with
    | false => simpa using htail
    | true =>
      have hx : x = y := by
        have := hag 0 rfl
        simpa using this
      simp [hx, htail]

/-- C5: two class-score arrays of equal shape that agree at every
position where the sub-word mask is true decode to identical span
sequences — scores at masked continuation positions can never
introduce a boundary or change the output. -/
theorem C5_mask_screening (preds1 preds2 : List (ℚ × ℚ))
    (sub_mask : List Bool) (N offset : Nat)
    (hlen : preds1.length = preds2.length)
    (hagree : ∀ i, sub_mask.getD i false = true → preds1[i]? = preds2[i]?) :
    get_predicted_spans preds1 sub_mask N offset =
      get_predicted_spans preds2 sub_mask N offset := by
  have hc : correctedSplits preds1 sub_mask N =
      correctedSplits preds2 sub_mask N := by
    apply zipWith_mask_congr
    · simp [hlen]
    · intro i hi
      rw [List.getD_eq_getElem?_getD] at hi
      by_cases hiN : i < N
      · rw [List.getElem?_take_of_lt hiN] at hi
        have hp : preds1[i]? = preds2[i]? := by
          apply hagree
          rw [List.getD_eq_getElem?_getD]
          exact hi
        rw [List.getElem?_take_of_lt hiN, List.getElem?_take_of_lt hiN,
          List.getElem?_map, List.getElem?_map, hp]
      · exfalso
        rw [List.getElem?_eq_none (by simp [List.length_take]; omega)] at hi
        simp at hi
  show spansOfCorrected (correctedSplits preds1 sub_mask N) offset =
    spansOfCorrected (correctedSplits preds2 sub_mask N) offset
  rw [hc]

theorem C5_mask_screening_witness :
    get_predicted_spans [(0, 1), (1, 0)] [true, false] 2 0 =
      get_predicted_spans [(0, 1), (0, 1)] [true, false] 2 0 :=
  C5_mask_screening _ _ _ 2 0 rfl (fun i hi => by
    match i with
    | 0 => rfl
    | 1 => simp at hi
    | _ + 2 => simp at hi)

/-- C8: whenever `Trainer.check_coverage_detected_spans` returns
normally, the coverage ratio lies in `[0, 1]` (the summed intersection
counts never exceed the summed reference counts) and the reported
predicted-span count is the non-negative total of per-sample span
counts. -/
theorem C8_ratio_in_unit_interval (data : List Sample) (r : ℚ) (n : Nat)
    (h : check_coverage_detected_spans data = some (r, n)) :
    0 ≤ r ∧ r ≤ 1 ∧ n = num_predicted data := by
  rw [check_coverage_detected_spans.eq_1] at h
  by_cases h0 : true_num data = 0
  · rw [if_pos h0] at h
    exact absurd h (by simp)
  · rw [if_neg h0] at h
    have hr := Option.some.inj h
    have hr1 : ((num_correct_predicted data : ℚ) / (true_num data : ℚ)) = r :=
      congrArg Prod.fst hr
    have hn : num_predicted data = n := congrArg Prod.snd hr
    have hpos : (0 : ℚ) < (true_num data : ℚ) := by
      exact_mod_cast Nat.pos_of_ne_zero h0
    refine ⟨?_, ?_, hn.symm⟩
    · rw [← hr1]
      positivity
    · rw [← hr1, div_le_one hpos]
      exact_mod_cast num_correct_le_true_num data

theorem C8_ratio_in_unit_interval_witness :
    0 ≤ (2 / 3 : ℚ) ∧ (2 / 3 : ℚ) ≤ 1 ∧ 2 = num_predicted [coverageSample] :=
  C8_ratio_in_unit_interval [coverageSample] (2 / 3) 2 coverage_example_eval

theorem nonzeroB_cons (b : Bool) (t : List Bool) :
    nonzeroB (b :: t) =
      (if b then [0] else []) ++ (nonzeroB t).map (· + 1) := by
  rw [nonzeroB, List.length_cons, List.range_succ_eq_map, List.filter_cons]
  cases b <;>
    simp [nonzeroB, List.filter_map, Function.comp_def, Nat.succ_eq_add_one]

theorem nonzeroB_length (m : List Bool) :
    (nonzeroB m).length = m.count true := by
  induction m with
  | nil => rfl
  | cons b t ih =>
    rw [nonzeroB_cons]
    cases b <;> simp [ih, List.count_cons]

theorem slidingPairs_getLast? :
    ∀ (l : List ℤ) (a b : ℤ),
      (slidingPairs (l ++ [a, b])).getLast? = some (a, b)
  | [], _, _ => rfl
  | x :: l, a, b => by
    obtain ⟨y, r, hy⟩ : ∃ y r, l ++ [a, b] = y :: r := by
      cases l with
      | nil => exact ⟨a, [b], rfl⟩
      | cons z l' => exact ⟨z, l' ++ [a, b], rfl⟩
    have hstep : slidingPairs ((x :: l) ++ [a, b]) =
        (x, y) :: slidingPairs (l ++ [a, b]) := by
      rw [List.cons_append, hy]
      rfl
    rw [hstep]
    have hin := slidingPairs_getLast? l a b
    cases hsp : slidingPairs (l ++ [a, b]) with
    | nil => rw [hsp] at hin; exact absurd hin (by simp)
    | cons p ps =>
      rw [hsp] at hin
      rw [List.getLast?_cons_cons, hin]

theorem buildSpans_length (xs : List ℤ) :
    (buildSpans xs).length = xs.length - 1 := by
  cases xs with
  | nil => rfl
  | cons x t =>
    simp [buildSpans, slidingPairs, List.length_zip]

/-- C9: for a sample whose sub-word mask has a forced-true first
element and at least two true entries,
`TransformerWithAggregation.construct_spans_ranges` returns exactly
`k + 2` span pairs (`k` = number of true mask entries); the first
returned span is always the degenerate pair `(0, -1)` — the left
sentinel `0` is prepended unconditionally, duplicating the forced-true
position 0 — and the last returned span is always `(L-1, L-1)` for
encoded sentence length `L`. -/
theorem C9_construct_spans_shape (words_mask : List Bool) (L : Nat)
    (h0 : words_mask.head? = some true)
    (hk : 2 ≤ words_mask.count true) :
    (construct_spans_ranges words_mask L).length =
        words_mask.count true + 2 ∧
      (construct_spans_ranges words_mask L).head? = some (0, -1) ∧
      (construct_spans_ranges words_mask L).getLast? =
        some ((L : ℤ) - 1, (L : ℤ) - 1) := by
  refine ⟨?_, ?_, ?_⟩
  · rw [construct_spans_ranges, buildSpans_length]
    simp [nonzeroB_length]
  · obtain ⟨t, ht⟩ : ∃ t, words_mask = true :: t := by
      cases hw : words_mask with
      | nil => rw [hw] at h0; exact absurd h0 (by simp)
      | cons b t =>
        rw [hw, List.head?_cons] at h0
        exact ⟨t, by rw [Option.some.inj h0]⟩
    subst ht
    rw [construct_spans_ranges, nonzeroB_cons]
    simp only [if_true, List.singleton_append, List.map_cons,
      List.cons_append]
    rw [buildSpans_cons_cons, List.head?_cons]
    norm_num
  · rw [construct_spans_ranges, buildSpans, List.getLast?_map,
      slidingPairs_getLast?]
    simp

theorem C9_construct_spans_shape_witness :
    (construct_spans_ranges [true, true] 2).head? = some (0, -1) :=
  (C9_construct_spans_shape [true, true] 2 rfl (by decide)).2.1

/-- C10: `Trainer._model_out_for_metrics` keeps the tensor shape;
every row at a mask-true position is the corresponding `model_out` row
unchanged, every row at a mask-false position is the fixed vector with
value 1 at index `ChunkCode.NOT_SPLIT` and 0 at every other class
index, and no other element is modified. -/
theorem C10_model_out_for_metrics (model_out : List (List ℚ))
    (sub_mask : List Bool) (C : Nat)
    (hlen : sub_mask.length = model_out.length)
    (hrow : ∀ row ∈ model_out, row.length = C) :
    (model_out_for_metrics model_out sub_mask C).length =
        model_out.length ∧
      (∀ row ∈ model_out_for_metrics model_out sub_mask C,
        row.length = C) ∧
      (∀ i, i < model_out.length →
        (model_out_for_metrics model_out sub_mask C)[i]? =
          if sub_mask.getD i false = true then model_out[i]?
          else some (fill_value C)) ∧
      ∀ j, (fill_value C)[j]? =
        if j < C then some (if j = ChunkCode.NOT_SPLIT then 1 else 0)
        else none := by
  have hfl : (fill_value C).length = C := by
    simp [fill_value]
  have hlen' : (model_out_for_metrics model_out sub_mask C).length =
      model_out.length := by
    simp [model_out_for_metrics, List.length_zipWith, hlen]
  have hidx : ∀ i, i < model_out.length →
      (model_out_for_metrics model_out sub_mask C)[i]? =
        if sub_mask.getD i false = true then model_out[i]?
        else some (fill_value C) := by
    intro i hi
    have hi' : i < sub_mask.length := by omega
    rw [model_out_for_metrics, List.getElem?_zipWith,
      List.getElem?_eq_getElem hi', List.getElem?_eq_getElem hi,
      List.getD_eq_getElem?_getD, List.getElem?_eq_getElem hi']
    cases hmv : sub_mask[i] <;> simp [hmv]
  refine ⟨hlen', ?_, hidx, ?_⟩
  · intro row hr
    obtain ⟨i, hi⟩ := List.mem_iff_getElem?.mp hr
    have hi' : i < model_out.length := by
      obtain ⟨hi2, -⟩ := List.getElem?_eq_some_iff.mp hi
      rw [hlen'] at hi2
      exact hi2
    rw [hidx i hi'] at hi
    by_cases hm : sub_mask.getD i false = true
    · rw [if_pos hm] at hi
      exact hrow row (List.getElem?_mem hi)
    · rw [if_neg hm] at hi
      rw [← Option.some.inj hi]
      exact hfl
  · intro j
    by_cases hj : j < C
    · rw [fill_value, List.getElem?_map, List.getElem?_range hj]
      simp [hj]
    · rw [fill_value, List.getElem?_eq_none (by simp; omega)]
      simp [hj]

theorem C10_model_out_for_metrics_witness :
    (model_out_for_metrics [[1, 2], [3, 4]] [true, false] 2).length = 2 :=
  (C10_model_out_for_metrics [[1, 2], [3, 4]] [true, false] 2 rfl
    (by decide)).1

end ASTE
